import Mathlib

/-!
Verification development for the ActuallyRedactPDF document sanitization
pipeline (the redaction engine: `redactPdfByAreas`, `findTextInPdf`,
`detectSensitivePatterns`, `sanitizePdf`, `verifyRedaction`).

The engine is embedded shallowly:

* A decoded PDF page is a list of positioned text items (the result of
  pdf.js `getTextContent`), together with its dimensions and a flag saying
  whether rasterizing the page (`page.render`) fails.  Coordinates are
  integers (the code works with arbitrary numbers; none of the verified
  properties depend on fractional values).
* `transform[4]` / `transform[5]` of a text item are the fields `tx` / `ty`;
  `viewport.height - transform[5]` is the top-left-origin conversion that the
  code performs at each use site.
* The destructive renderer produces `FlatPage`s: pages whose only content is
  an embedded raster image (the rendered original page plus the painted
  masks).  Re-decoding such a page (`RedactedPdf.toDocument`) yields no text
  items, because the emitted page contains a single image XObject and no
  text-drawing operators.
* `Date.now` / `new Date()` is passed explicitly as an integer timestamp.
* The JavaScript regular expressions of `PATTERNS` are embedded as
  backtracking matchers over character lists with JS `exec` semantics
  (leftmost match, greedy with backtracking, `\b` word boundaries, global
  flag restarting after each match).
-/

/-- One item of pdf.js `getTextContent().items`: a positioned text fragment.
`tx`, `ty` are `transform[4]`, `transform[5]` of the item. -/
structure TextItem where
  str : String
  tx : Int
  ty : Int
  width : Int
  height : Int
deriving DecidableEq

/-- A decoded page: dimensions (the scale-1 viewport), its text items in
stream order, and whether `page.render` rejects for this page. -/
structure Page where
  width : Int
  height : Int
  items : List TextItem
  corrupt : Bool
deriving DecidableEq

/-- Document-level metadata of a pdf-lib `PDFDocument`. -/
structure PdfMetadata where
  title : String
  author : String
  subject : String
  keywords : List String
  producer : String
  creator : String
  creationDate : Int
  modificationDate : Int
deriving DecidableEq

/-- A decoded PDF document: pages plus metadata. -/
structure PdfDocument where
  pages : List Page
  meta : PdfMetadata
deriving DecidableEq

/-- `RedactionArea` of the source: a page-relative rectangle to destroy. -/
structure RedactionArea where
  pageIndex : Nat
  x : Int
  y : Int
  width : Int
  height : Int
deriving DecidableEq

/-- `TextMatch` of the source: a located occurrence of a search term. -/
structure TextMatch where
  pageIndex : Nat
  text : String
  x : Int
  y : Int
  width : Int
  height : Int
deriving DecidableEq

/-- The four keys of the source `PATTERNS` object. -/
inductive PatternType where
  | ssn
  | email
  | phone
  | credit_card
deriving DecidableEq

/-- `PatternMatch` of the source: a `TextMatch` tagged with the pattern. -/
structure PatternMatch where
  pageIndex : Nat
  text : String
  pattern : String
  patternType : PatternType
  x : Int
  y : Int
  width : Int
  height : Int
deriving DecidableEq

/-- A `fillRect` painted on the canvas (already scaled by `renderScale`). -/
structure MaskRect where
  x : Int
  y : Int
  width : Int
  height : Int
deriving DecidableEq

/-- The PNG produced from the canvas of one page: the rendered base page at
`scale`, with the black mask rectangles painted over it. -/
structure RasterImage where
  scale : Int
  canvasWidth : Int
  canvasHeight : Int
  basePage : Page
  masks : List MaskRect
deriving DecidableEq

/-- An output page of `redactPdfByAreas`: sized to the original (unscaled)
page dimensions and containing only the embedded raster image, drawn at
(0,0) with the original dimensions. -/
structure FlatPage where
  width : Int
  height : Int
  image : RasterImage
deriving DecidableEq

/-- The document assembled by `redactPdfByAreas` before `save()`. -/
structure RedactedPdf where
  pages : List FlatPage
  meta : PdfMetadata
deriving DecidableEq

/-- The rejection raised when `page.render(...)` fails for a page. -/
structure RenderError where
  pageIndex : Nat
deriving DecidableEq

/-- Result type of `verifyRedaction`. -/
structure VerificationResult where
  success : Bool
  extractedText : List String
deriving DecidableEq

/-! ## The JavaScript regular expressions of `PATTERNS`

A matcher consumes characters from the front of a list and returns the
possible remainders in backtracking priority order (greedy first), exactly
the exploration order of the JS engine on these patterns. -/

/-- Backtracking matcher: input suffix to possible remaining suffixes, in
priority order. -/
abbrev M := List Char → List (List Char)

/-- Match one character satisfying `p`. -/
def mCh (p : Char → Bool) : M := fun s =>
  match s with
  | [] => []
  | c :: rest => if p c then [rest] else []

/-- Sequencing; earlier alternatives of `a` are explored first. -/
def mSeq (a b : M) : M := fun s => (a s).flatMap b

/-- Greedy option `X?`: first try consuming, then the empty alternative. -/
def mOpt (a : M) : M := fun s => a s ++ [s]

/-- `X{n}`: exactly `n` repetitions. -/
def mRep : Nat → M → M
  | 0, _ => fun s => [s]
  | n + 1, a => mSeq a (mRep n a)

/-- Length of the maximal prefix of characters satisfying `p`. -/
def takeWhileCount (p : Char → Bool) : List Char → Nat
  | [] => 0
  | c :: rest => if p c then takeWhileCount p rest + 1 else 0

/-- Greedy `X{min,}` over a character class: all allowed consumption
lengths, longest first. -/
def mRepAtLeast (minN : Nat) (p : Char → Bool) : M := fun s =>
  let maxN := takeWhileCount p s
  if maxN < minN then []
  else (List.range (maxN - minN + 1)).map (fun i => s.drop (maxN - i))

/-- `\d` of the patterns. -/
def digitCh (c : Char) : Bool := c.isDigit

/-- `[-\s]` of the ssn pattern. -/
def ssnSepCh (c : Char) : Bool := c == '-' || c.isWhitespace

/-- Body of `/\b\d{3}[-\s]?\d{2}[-\s]?\d{4}\b/` without the boundaries. -/
def ssnBody : M :=
  mSeq (mRep 3 (mCh digitCh))
    (mSeq (mOpt (mCh ssnSepCh))
      (mSeq (mRep 2 (mCh digitCh))
        (mSeq (mOpt (mCh ssnSepCh)) (mRep 4 (mCh digitCh)))))

/-- `[A-Za-z0-9._%+-]` of the email pattern. -/
def emailLocalCh (c : Char) : Bool :=
  c.isAlphanum || c == '.' || c == '_' || c == '%' || c == '+' || c == '-'

/-- `[A-Za-z0-9.-]` of the email pattern. -/
def emailDomainCh (c : Char) : Bool := c.isAlphanum || c == '.' || c == '-'

/-- `[A-Z|a-z]` of the email pattern (the class literally contains a bar). -/
def emailTldCh (c : Char) : Bool := c.isAlpha || c == '|'

/-- Body of the email pattern
`/\b[A-Za-z0-9._%+-]+@[A-Za-z0-9.-]+\.[A-Z|a-z]{2,}\b/`. -/
def emailBody : M :=
  mSeq (mRepAtLeast 1 emailLocalCh)
    (mSeq (mCh (fun c => c == '@'))
      (mSeq (mRepAtLeast 1 emailDomainCh)
        (mSeq (mCh (fun c => c == '.')) (mRepAtLeast 2 emailTldCh))))

/-- `[-.\s]` of the phone pattern. -/
def phoneSepCh (c : Char) : Bool := c == '-' || c == '.' || c.isWhitespace

/-- `(?:\+?1[-.\s]?)` of the phone pattern. -/
def phoneCountry : M :=
  mSeq (mOpt (mCh (fun c => c == '+')))
    (mSeq (mCh (fun c => c == '1')) (mOpt (mCh phoneSepCh)))

/-- `(?:\(?\d{3}\)?[-.\s]?)` of the phone pattern. -/
def phoneArea : M :=
  mSeq (mOpt (mCh (fun c => c == '(')))
    (mSeq (mRep 3 (mCh digitCh))
      (mSeq (mOpt (mCh (fun c => c == ')'))) (mOpt (mCh phoneSepCh))))

/-- Body of the phone pattern
`/\b(?:\+?1[-.\s]?)?(?:\(?\d{3}\)?[-.\s]?)?\d{3}[-.\s]?\d{4}\b/`. -/
def phoneBody : M :=
  mSeq (mOpt phoneCountry)
    (mSeq (mOpt phoneArea)
      (mSeq (mRep 3 (mCh digitCh))
        (mSeq (mOpt (mCh phoneSepCh)) (mRep 4 (mCh digitCh)))))

/-- `[-\s]` of the credit-card pattern. -/
def ccSepCh (c : Char) : Bool := c == '-' || c.isWhitespace

/-- Body of the credit-card pattern `/\b(?:\d{4}[-\s]?){3}\d{4}\b/`. -/
def ccBody : M :=
  mSeq (mRep 3 (mSeq (mRep 4 (mCh digitCh)) (mOpt (mCh ccSepCh))))
    (mRep 4 (mCh digitCh))

/-- The source `PATTERNS` object, as matcher bodies. -/
def PATTERNS : PatternType → M
  | .ssn => ssnBody
  | .email => emailBody
  | .phone => phoneBody
  | .credit_card => ccBody

/-- JS word character (`\w`): ASCII letter, digit, or underscore. -/
def isWordChar (c : Char) : Bool := c.isAlphanum || c == '_'

/-- Word-character test where `none` stands for the edge of the string. -/
def isWordOpt : Option Char → Bool
  | some c => isWordChar c
  | none => false

/-- JS `\b`: the two sides differ in word-character-ness. -/
def isBoundary (a b : Option Char) : Bool := isWordOpt a != isWordOpt b

/-- Character at index `i`, `none` past the end. -/
def charAt (text : List Char) (i : Nat) : Option Char := text.get? i

/-- Try the full pattern (`\b` body `\b`) at position `p`; return the length
of the first (leftmost-greedy) successful match. -/
def matchLenAt (body : M) (text : List Char) (p : Nat) : Option Nat :=
  let prev := if p == 0 then none else charAt text (p - 1)
  if isBoundary prev (charAt text p) then
    let s := text.drop p
    (body s).findSome? (fun rem =>
      let len := s.length - rem.length
      if isBoundary (charAt text (p + len - 1)) (charAt text (p + len)) then
        some len
      else none)
  else none

/-- The `while ((match = regex.exec(fullText)) !== null)` loop: scan from
position `p`, emit `(index, length)` pairs, continue after each match. -/
def execFrom (body : M) (text : List Char) : Nat → Nat → List (Nat × Nat)
  | 0, _ => []
  | fuel + 1, p =>
    if p ≥ text.length then []
    else
      match matchLenAt body text p with
      | some len => (p, len) :: execFrom body text fuel (p + max len 1)
      | none => execFrom body text fuel (p + 1)

/-- All matches of a pattern body over a text, as `(index, length)` pairs. -/
def execPattern (body : M) (text : List Char) : List (Nat × Nat) :=
  execFrom body text (text.length + 1) 0

/-! ## The engine functions (from the source) -/

/-- Entry of the `positionMap` built by `detectSensitivePatterns`:
the half-open contribution `[start, stop)` of an item in `fullText`, where
`stop` is the source field `end` (the index of the separator space). -/
structure PosEntry where
  start : Nat
  stop : Nat
  item : TextItem
deriving DecidableEq

/-- Build `fullText` (items joined by single spaces, with one trailing
space) together with the `positionMap`, from a given starting offset. -/
def buildPositionMap : List TextItem → Nat → (List Char × List PosEntry)
  | [], _ => ([], [])
  | it :: rest, acc =>
    let contrib := it.str.data ++ [' ']
    let next := buildPositionMap rest (acc + contrib.length)
    (contrib ++ next.1, ⟨acc, acc + it.str.length, it⟩ :: next.2)

/-- `textItem.height || 12` of the source. -/
def effHeight (h : Int) : Int := if h = 0 then 12 else h

/-- `pos.item.width || 100` of the source. -/
def effWidth100 (w : Int) : Int := if w = 0 then 100 else w

/-- Matches of one pattern type on one page, as pushed by
`detectSensitivePatterns`: each regex match is attributed to the first
`positionMap` entry `pos` with `pos.start <= matchStart && pos.end >=
matchStart` (and then the loop breaks), taking that single item's geometry. -/
def pageMatchesFor (pageIndex : Nat) (page : Page) (t : PatternType) :
    List PatternMatch :=
  (execPattern (PATTERNS t) (buildPositionMap page.items 0).1).filterMap
    (fun ml =>
      match (buildPositionMap page.items 0).2.find? (fun pos =>
          decide (pos.start ≤ ml.1) && decide (ml.1 ≤ pos.stop)) with
      | none => none
      | some pos =>
        some ⟨pageIndex,
          String.mk (((buildPositionMap page.items 0).1.drop ml.1).take ml.2),
          String.mk (((buildPositionMap page.items 0).1.drop ml.1).take ml.2),
          t, pos.item.tx,
          page.height - pos.item.ty - effHeight pos.item.height,
          effWidth100 pos.item.width,
          effHeight pos.item.height + 4⟩)

/-- The page loop of `detectSensitivePatterns`: pages outermost, then the
supplied pattern types in order. -/
def detectPages : List Page → Nat → List PatternType → List PatternMatch
  | [], _, _ => []
  | p :: rest, i, ts =>
    ts.flatMap (fun t => pageMatchesFor i p t) ++ detectPages rest (i + 1) ts

/-- `detectSensitivePatterns` of the source.  The source's default for
`patternTypes` is `canonicalPatternTypes` below. -/
def detectSensitivePatterns (doc : PdfDocument)
    (patternTypes : List PatternType) : List PatternMatch :=
  detectPages doc.pages 0 patternTypes

/-- The source's default argument `['ssn', 'email', 'phone', 'credit_card']`. -/
def canonicalPatternTypes : List PatternType :=
  [.ssn, .email, .phone, .credit_card]

/-- `needle` is a prefix of `hay` (character-wise). -/
def charsStartWith : List Char → List Char → Bool
  | [], _ => true
  | _ :: _, [] => false
  | a :: as, b :: bs => a == b && charsStartWith as bs

/-- JS `String.prototype.includes` on decoded character lists. -/
def containsSub (hay needle : List Char) : Bool :=
  match hay with
  | [] => needle.isEmpty
  | _ :: rest => charsStartWith needle hay || containsSub rest needle

/-- ASCII lowercasing, the effect of JS `toLowerCase` on the ASCII texts the
engine handles. -/
def asciiLowerChar (c : Char) : Char :=
  if c.toNat ≥ 65 && c.toNat ≤ 90 then Char.ofNat (c.toNat + 32) else c

/-- Lowercase a string character-wise. -/
def asciiLower (s : String) : String := String.mk (s.data.map asciiLowerChar)

/-- The page loop of `findTextInPdf`: each item is tested separately with
`includes`, and a hit yields a match box from that item's geometry. -/
def findTextInPages : List Page → Nat → String → Bool → List TextMatch
  | [], _, _, _ => []
  | p :: rest, i, term, caseSensitive =>
    p.items.filterMap (fun it =>
      let itemText := if caseSensitive then it.str else asciiLower it.str
      let needle := if caseSensitive then term else asciiLower term
      if containsSub itemText.data needle.data then
        let y := p.height - it.ty
        some ⟨i, it.str, it.tx, y - effHeight it.height,
          effWidth100 it.width, effHeight it.height + 4⟩
      else none)
    ++ findTextInPages rest (i + 1) term caseSensitive

/-- `findTextInPdf` of the source. -/
def findTextInPdf (doc : PdfDocument) (searchTerm : String)
    (caseSensitive : Bool) : List TextMatch :=
  findTextInPages doc.pages 0 searchTerm caseSensitive

/-- `findAndCreateRedactions` of the source. -/
def findAndCreateRedactions (doc : PdfDocument) (searchTerm : String)
    (caseSensitive : Bool) : List RedactionArea :=
  (findTextInPdf doc searchTerm caseSensitive).map (fun m =>
    ⟨m.pageIndex, m.x, m.y, m.width, m.height⟩)

/-- `patternMatchesToRedactions` of the source. -/
def patternMatchesToRedactions (ms : List PatternMatch) :
    List RedactionArea :=
  ms.map (fun m => ⟨m.pageIndex, m.x, m.y, m.width, m.height⟩)

/-- The metadata written by `redactPdfByAreas` before `save()`; a fresh
pdf-lib document stamps the creation/modification instant. -/
def redactedMeta (now : Int) : PdfMetadata :=
  ⟨"", "", "", [], "ActuallyRedactPDF - True Redaction", "ActuallyRedactPDF",
    now, now⟩

/-- The metadata written by `sanitizePdf`: cleared fields, fixed
producer/creator, timestamps reset to the sanitization instant. -/
def sanitizedMeta (now : Int) : PdfMetadata :=
  ⟨"", "", "", [], "ActuallyRedactPDF - Sanitized", "ActuallyRedactPDF",
    now, now⟩

/-- `sanitizePdf` of the source: pages untouched, metadata replaced; `now`
is the instant of the two `new Date()` calls. -/
def sanitizePdf (doc : PdfDocument) (now : Int) : PdfDocument :=
  { doc with meta := sanitizedMeta now }

/-- The canvas work of `redactPdfByAreas` for one page: render the page at
`scale`, paint a black rectangle for every area of this page (coordinates
multiplied by `scale`, in input order), and emit a new page of the original
dimensions holding only that image. -/
def flattenPage (areas : List RedactionArea) (scale : Int) (i : Nat)
    (p : Page) : FlatPage :=
  ⟨p.width, p.height,
    ⟨scale, p.width * scale, p.height * scale, p,
      (areas.filter (fun a => decide (a.pageIndex = i))).map (fun a =>
        ⟨a.x * scale, a.y * scale, a.width * scale, a.height * scale⟩)⟩⟩

/-- The page loop of `redactPdfByAreas`: pages in order, starting at index
`i`; the first page whose rasterization fails aborts the whole run. -/
def renderAll (areas : List RedactionArea) (scale : Int) :
    List Page → Nat → Except RenderError (List FlatPage)
  | [], _ => .ok []
  | p :: rest, i =>
    if p.corrupt then .error ⟨i⟩
    else
      match renderAll areas scale rest (i + 1) with
      | .error e => .error e
      | .ok fps => .ok (flattenPage areas scale i p :: fps)

/-- `redactPdfByAreas` of the source: flatten every page (the grouping map
`redactionsByPage` is the per-index filter), then strip the metadata.  A
page render rejection propagates and no document is produced. -/
def redactPdfByAreas (doc : PdfDocument) (areas : List RedactionArea)
    (scale : Int) (now : Int) : Except RenderError RedactedPdf :=
  match renderAll areas scale doc.pages 0 with
  | .error e => .error e
  | .ok fps => .ok ⟨fps, redactedMeta now⟩

/-- Decoding an output page of the renderer: the page content is a single
embedded image and carries no text operators, so text extraction yields no
items, and the page rasterizes fine. -/
def FlatPage.toPage (fp : FlatPage) : Page := ⟨fp.width, fp.height, [], false⟩

/-- Decoding the saved output of `redactPdfByAreas` back into a document. -/
def RedactedPdf.toDocument (r : RedactedPdf) : PdfDocument :=
  ⟨r.pages.map FlatPage.toPage, r.meta⟩

/-- The overlap test of `verifyRedaction` for one item against one area,
with `x`, `y` the top-left-converted item position, `textItem.width || 0`
(the identity on integers) and `textItem.height || 12`. -/
def itemOverlapsArea (pageHeight : Int) (it : TextItem)
    (area : RedactionArea) : Bool :=
  let x := it.tx
  let y := pageHeight - it.ty
  decide (x < area.x + area.width) && decide (x + it.width > area.x) &&
  decide (y < area.y + area.height) && decide (y + effHeight it.height > area.y)

/-- The inner loop of `verifyRedaction` for one area: skip out-of-range page
indices, otherwise collect the text of every overlapping item. -/
def verifyArea (doc : PdfDocument) (area : RedactionArea) : List String :=
  if h : area.pageIndex < doc.pages.length then
    let page := doc.pages.get ⟨area.pageIndex, h⟩
    page.items.filterMap (fun it =>
      if itemOverlapsArea page.height it area then some it.str else none)
  else []

/-- `verifyRedaction` of the source. -/
def verifyRedaction (doc : PdfDocument) (areas : List RedactionArea) :
    VerificationResult :=
  let extracted := areas.flatMap (verifyArea doc)
  ⟨extracted.isEmpty, extracted⟩

/-- The pure content of a successful `renderAll` run: one flattened page per
input page, indices counted from `i`. -/
def flattenAll (areas : List RedactionArea) (scale : Int) :
    List Page → Nat → List FlatPage
  | [], _ => []
  | p :: rest, i => flattenPage areas scale i p :: flattenAll areas scale rest (i + 1)

/-! ## Example documents used by concrete theorems -/

/-- A page whose ssn-shaped text is split across two runs: `"123"` and
`"45-6789"`; with the single-space separator the concatenated text is
`"123 45-6789 "` and the ssn pattern matches the range `[0, 11)`, which
overlaps both runs' contributed ranges `[0, 3]` and `[4, 11]`. -/
def exPage3 : Page :=
  ⟨612, 792, [⟨"123", 10, 700, 30, 10⟩, ⟨"45-6789", 45, 700, 70, 10⟩], false⟩

/-- One-page document around `exPage3`. -/
def exDoc3 : PdfDocument := ⟨[exPage3], ⟨"", "", "", [], "", "", 0, 0⟩⟩

/-- The single region `detectSensitivePatterns` emits on `exDoc3`. -/
def exMatch3 : PatternMatch :=
  ⟨0, "123 45-6789", "123 45-6789", .ssn, 10, 82, 30, 14⟩

/-- A page with one extractable run of raw height 0. -/
def exPage4 : Page := ⟨612, 100, [⟨"ghost", 10, 95, 10, 0⟩], false⟩

/-- One-page document around `exPage4`. -/
def exDoc4 : PdfDocument := ⟨[exPage4], ⟨"", "", "", [], "", "", 0, 0⟩⟩

/-- A region strictly below the height-0 run: it overlaps only through the
fallback height 12. -/
def exArea4 : RedactionArea := ⟨0, 5, 10, 20, 10⟩

/-- A document with nonempty metadata in every field. -/
def exDoc5 : PdfDocument := ⟨[], ⟨"t", "a", "s", ["k"], "p", "c", 5, 6⟩⟩

/-- A page holding both an ssn-shaped and an email-shaped text. -/
def exPage6 : Page :=
  ⟨612, 792, [⟨"SSN 555-12-3456 and mail a@b.com ok", 10, 700, 300, 10⟩], false⟩

/-- One-page document around `exPage6`. -/
def exDoc6 : PdfDocument := ⟨[exPage6], ⟨"", "", "", [], "", "", 0, 0⟩⟩

/-- The enabled subset {ssn, phone} in the source's canonical order. -/
def exTypes6 : List PatternType := [.ssn, .phone]

/-- A healthy page with one text run. -/
def wPage : Page := ⟨612, 792, [⟨"TOP SECRET", 72, 700, 120, 12⟩], false⟩

/-- One-page document around `wPage`, with nonempty metadata. -/
def wDoc : PdfDocument := ⟨[wPage], ⟨"t", "a", "s", ["k"], "p", "c", 7, 8⟩⟩

/-- One region on page 0 of `wDoc`. -/
def wAreas : List RedactionArea := [⟨0, 10, 10, 20, 20⟩]

/-- The output `redactPdfByAreas wDoc wAreas 2 0` produces. -/
def wOut : RedactedPdf := ⟨[flattenPage wAreas 2 0 wPage], redactedMeta 0⟩

/-- A two-page document: text on page 0, text on page 1, both healthy. -/
def wDoc2 : PdfDocument :=
  ⟨[⟨612, 792, [⟨"front", 30, 650, 50, 11⟩], false⟩,
    ⟨400, 500, [⟨"back", 20, 450, 40, 11⟩], false⟩],
    ⟨"t", "a", "s", ["k"], "p", "c", 7, 8⟩⟩

/-- One region on page 0 of `wDoc2` only; page 1 owns zero regions. -/
def wAreas2 : List RedactionArea := [⟨0, 25, 130, 60, 15⟩]

/-- The output `redactPdfByAreas wDoc2 wAreas2 3 0` produces. -/
def wOut2 : RedactedPdf :=
  ⟨flattenAll wAreas2 3 wDoc2.pages 0, redactedMeta 0⟩

/-- A document whose second page fails to rasterize. -/
def wDocCorrupt : PdfDocument :=
  ⟨[⟨612, 792, [], false⟩, ⟨612, 792, [⟨"bad", 5, 5, 9, 9⟩], true⟩],
    ⟨"", "", "", [], "", "", 0, 0⟩⟩

/-- A region whose `pageIndex` is past the end of `wDoc2`. -/
def wBadArea : RedactionArea := ⟨9, 1, 2, 3, 4⟩

/-! ## Helper lemmas -/

/-- A decoded output page of the renderer has no text items, so the
per-area extraction of `verifyRedaction` finds nothing. -/
theorem verifyArea_toDocument (r : RedactedPdf) (area : RedactionArea) :
    verifyArea r.toDocument area = [] := by
  unfold verifyArea
  split
  · simp [RedactedPdf.toDocument, FlatPage.toPage]
  · rfl

/-- `verifyRedaction` on any decoded renderer output reports success with
no extracted fragments, for every region list. -/
theorem verifyRedaction_toDocument (r : RedactedPdf)
    (areas : List RedactionArea) :
    verifyRedaction r.toDocument areas = ⟨true, []⟩ := by
  have h : areas.flatMap (verifyArea r.toDocument) = [] := by
    induction areas with
    | nil => rfl
    | cons a rest ih => simp [verifyArea_toDocument, ih]
  simp [verifyRedaction, h]

/-- A successful page loop yields exactly the pure flattening. -/
theorem renderAll_ok (areas : List RedactionArea) (scale : Int) :
    ∀ (ps : List Page) (i : Nat) (fps : List FlatPage),
      renderAll areas scale ps i = .ok fps →
      fps = flattenAll areas scale ps i := by
  intro ps
  induction ps with
  | nil =>
    intro i fps h
    simpa [renderAll, flattenAll] using h.symm
  | cons p rest ih =>
    intro i fps h
    unfold renderAll at h
    split at h
    · cases h
    · cases hr : renderAll areas scale rest (i + 1) with
      | error e => rw [hr] at h; cases h
      | ok fps2 =>
        rw [hr] at h
        cases h
        simp [flattenAll, ih _ _ hr]

/-- A successful `redactPdfByAreas` run: the output is the flattening of
every page plus the stripped metadata. -/
theorem redactPdfByAreas_ok (doc : PdfDocument) (areas : List RedactionArea)
    (scale now : Int) (out : RedactedPdf)
    (h : redactPdfByAreas doc areas scale now = .ok out) :
    out = ⟨flattenAll areas scale doc.pages 0, redactedMeta now⟩ := by
  unfold redactPdfByAreas at h
  cases hr : renderAll areas scale doc.pages 0 with
  | error e => rw [hr] at h; cases h
  | ok fps =>
    rw [hr] at h
    cases h
    rw [renderAll_ok areas scale doc.pages 0 fps hr]

/-- Flattening preserves the per-page (width, height) sequence. -/
theorem flattenAll_dims (areas : List RedactionArea) (scale : Int) :
    ∀ (ps : List Page) (i : Nat),
      (flattenAll areas scale ps i).map (fun fp => (fp.width, fp.height)) =
        ps.map (fun p => (p.width, p.height)) := by
  intro ps
  induction ps with
  | nil => intro i; rfl
  | cons p rest ih => intro i; simp [flattenAll, flattenPage, ih]

/-- Decoding the flattening gives text-free pages of the same dimensions. -/
theorem flattenAll_toPage (areas : List RedactionArea) (scale : Int) :
    ∀ (ps : List Page) (i : Nat),
      (flattenAll areas scale ps i).map FlatPage.toPage =
        ps.map (fun p => ⟨p.width, p.height, [], false⟩) := by
  intro ps
  induction ps with
  | nil => intro i; rfl
  | cons p rest ih => intro i; simp [flattenAll, flattenPage, FlatPage.toPage, ih]

/-- Indexing into the flattening. -/
theorem flattenAll_get (areas : List RedactionArea) (scale : Int) :
    ∀ (ps : List Page) (i j : Nat) (hj : j < ps.length)
      (hj2 : j < (flattenAll areas scale ps i).length),
      (flattenAll areas scale ps i).get ⟨j, hj2⟩ =
        flattenPage areas scale (i + j) (ps.get ⟨j, hj⟩) := by
  intro ps
  induction ps with
  | nil => intro i j hj hj2; exact absurd hj (Nat.not_lt_zero j)
  | cons p rest ih =>
    intro i j hj hj2
    cases j with
    | zero => rfl
    | succ j =>
      have := ih (i + 1) j (Nat.lt_of_succ_lt_succ hj)
        (by simpa [flattenAll] using Nat.lt_of_succ_lt_succ hj2)
      simpa [flattenAll, Nat.add_assoc, Nat.add_comm 1 j] using this

/-- The page loop rejects as soon as any page fails to rasterize, naming a
corrupt page. -/
theorem renderAll_corrupt (areas : List RedactionArea) (scale : Int) :
    ∀ (ps : List Page) (i : Nat), (∃ p ∈ ps, p.corrupt = true) →
      ∃ e, renderAll areas scale ps i = .error e ∧
        ∃ j, ∃ hj : j < ps.length,
          e.pageIndex = i + j ∧ (ps.get ⟨j, hj⟩).corrupt = true := by
  intro ps
  induction ps with
  | nil =>
    intro i h
    obtain ⟨p, hp, _⟩ := h
    exact absurd hp (List.not_mem_nil p)
  | cons p rest ih =>
    intro i h
    by_cases hc : p.corrupt = true
    · refine ⟨⟨i⟩, ?_, 0, Nat.succ_pos _, ?_, hc⟩
      · simp [renderAll, hc]
      · simp
    · obtain ⟨q, hq, hcq⟩ := h
      rcases List.mem_cons.mp hq with hqp | hqrest
      · exact absurd (hqp ▸ hcq) hc
      · obtain ⟨e, hr, j, hj, hpi, hcj⟩ := ih (i + 1) ⟨q, hqrest, hcq⟩
        refine ⟨e, ?_, j + 1, Nat.succ_lt_succ hj, ?_, hcj⟩
        · simp [renderAll, hc, hr]
        · omega

/-- Claim C1: for every input document and region set, running the
destructive renderer (`redactPdfByAreas`) and then the verifier
(`verifyRedaction`) on the renderer's output with the same region set
yields `success = true` with no extracted fragments: re-extracting text
from the output pages finds no run overlapping any region. -/
theorem redact_then_verify_succeeds (doc : PdfDocument)
    (areas : List RedactionArea) (scale now : Int) (out : RedactedPdf)
    (_h : redactPdfByAreas doc areas scale now = .ok out) :
    verifyRedaction out.toDocument areas = ⟨true, []⟩ :=
  verifyRedaction_toDocument out areas

/-- Witness for C1 at a concrete one-page document with one region. -/
theorem redact_then_verify_succeeds_witness :
    redactPdfByAreas wDoc wAreas 2 0 = .ok wOut ∧
      verifyRedaction wOut.toDocument wAreas = ⟨true, []⟩ :=
  ⟨rfl, redact_then_verify_succeeds wDoc wAreas 2 0 wOut rfl⟩

/-- Counterexample to claim C5 as stated: sanitizing the sanitizer's own
output at a later instant changes the metadata record — the
creation/modification timestamps are reset to the second pass's own time
(everything else, already empty, is unchanged). -/
theorem sanitize_twice_metadata_differs :
    (sanitizePdf (sanitizePdf exDoc5 0) 1).meta ≠ (sanitizePdf exDoc5 0).meta ∧
    (sanitizePdf (sanitizePdf exDoc5 0) 1).meta.creationDate = 1 ∧
    (sanitizePdf (sanitizePdf exDoc5 0) 1).meta.modificationDate = 1 ∧
    (sanitizePdf exDoc5 0).meta.creationDate = 0 ∧
    (sanitizePdf exDoc5 0).meta.modificationDate = 0 ∧
    (sanitizePdf (sanitizePdf exDoc5 0) 1).meta.title = "" ∧
    (sanitizePdf (sanitizePdf exDoc5 0) 1).meta.author = "" ∧
    (sanitizePdf (sanitizePdf exDoc5 0) 1).meta.subject = "" ∧
    (sanitizePdf (sanitizePdf exDoc5 0) 1).meta.keywords = [] := by
  decide

/-- Claim C5 as amended: a second `sanitizePdf` pass leaves title, author,
subject, keywords (already empty), producer and creator exactly as after
the first pass, and only resets the creation/modification timestamps to
the second pass's own instant; with the same instant the output is
literally identical. -/
theorem sanitize_second_pass_metadata (doc : PdfDocument) (t1 t2 : Int) :
    (sanitizePdf (sanitizePdf doc t1) t2).meta.title =
      (sanitizePdf doc t1).meta.title ∧
    (sanitizePdf (sanitizePdf doc t1) t2).meta.author =
      (sanitizePdf doc t1).meta.author ∧
    (sanitizePdf (sanitizePdf doc t1) t2).meta.subject =
      (sanitizePdf doc t1).meta.subject ∧
    (sanitizePdf (sanitizePdf doc t1) t2).meta.keywords =
      (sanitizePdf doc t1).meta.keywords ∧
    (sanitizePdf (sanitizePdf doc t1) t2).meta.producer =
      (sanitizePdf doc t1).meta.producer ∧
    (sanitizePdf (sanitizePdf doc t1) t2).meta.creator =
      (sanitizePdf doc t1).meta.creator ∧
    (sanitizePdf (sanitizePdf doc t1) t2).meta.title = "" ∧
    (sanitizePdf (sanitizePdf doc t1) t2).meta.author = "" ∧
    (sanitizePdf (sanitizePdf doc t1) t2).meta.subject = "" ∧
    (sanitizePdf (sanitizePdf doc t1) t2).meta.keywords = [] ∧
    (sanitizePdf (sanitizePdf doc t1) t2).meta.creationDate = t2 ∧
    (sanitizePdf (sanitizePdf doc t1) t2).meta.modificationDate = t2 ∧
    (sanitizePdf (sanitizePdf doc t1) t2).pages = (sanitizePdf doc t1).pages ∧
    sanitizePdf (sanitizePdf doc t1) t1 = sanitizePdf doc t1 :=
  ⟨rfl, rfl, rfl, rfl, rfl, rfl, rfl, rfl, rfl, rfl, rfl, rfl, rfl, rfl⟩

/-- Claim C7: if rasterization of any single page fails, the whole
`redactPdfByAreas` run fails: the error propagates to the caller, no output
document is produced, and the error names a page that is indeed corrupt —
the failing page is never silently skipped. -/
theorem render_failure_aborts (doc : PdfDocument)
    (areas : List RedactionArea) (scale now : Int)
    (h : ∃ p ∈ doc.pages, p.corrupt = true) :
    ∃ e, redactPdfByAreas doc areas scale now = .error e ∧
      ∃ j, ∃ hj : j < doc.pages.length,
        e.pageIndex = j ∧ (doc.pages.get ⟨j, hj⟩).corrupt = true := by
  obtain ⟨e, hr, j, hj, hpi, hcj⟩ := renderAll_corrupt areas scale doc.pages 0 h
  refine ⟨e, ?_, j, hj, ?_, hcj⟩
  · unfold redactPdfByAreas
    rw [hr]
  · omega

/-- Witness for C7 at a concrete document whose second page is corrupt. -/
theorem render_failure_aborts_witness :
    (∃ p ∈ wDocCorrupt.pages, p.corrupt = true) ∧
      ∃ e, redactPdfByAreas wDocCorrupt [] 2 0 = .error e ∧
        ∃ j, ∃ hj : j < wDocCorrupt.pages.length,
          e.pageIndex = j ∧ (wDocCorrupt.pages.get ⟨j, hj⟩).corrupt = true :=
  ⟨by decide, render_failure_aborts wDocCorrupt [] 2 0 (by decide)⟩

/-- Claim C8: a successful `redactPdfByAreas` run produces exactly one
output page per input page, in the original order, each sized to the
corresponding input page's original (unscaled) dimensions. -/
theorem redact_preserves_page_geometry (doc : PdfDocument)
    (areas : List RedactionArea) (scale now : Int) (out : RedactedPdf)
    (h : redactPdfByAreas doc areas scale now = .ok out) :
    out.pages.map (fun fp => (fp.width, fp.height)) =
      doc.pages.map (fun p => (p.width, p.height)) := by
  have hout := redactPdfByAreas_ok doc areas scale now out h
  subst hout
  exact flattenAll_dims areas scale doc.pages 0

/-- Witness for C8 at a concrete two-page document. -/
theorem redact_preserves_page_geometry_witness :
    redactPdfByAreas wDoc2 wAreas2 3 0 = .ok wOut2 ∧
      wOut2.pages.map (fun fp => (fp.width, fp.height)) =
        wDoc2.pages.map (fun p => (p.width, p.height)) :=
  ⟨rfl, redact_preserves_page_geometry wDoc2 wAreas2 3 0 wOut2 rfl⟩

/-- The output of `redactPdfByAreas` with no regions at all. -/
def wOut9 : RedactedPdf := ⟨flattenAll [] 2 wDoc.pages 0, redactedMeta 5⟩

/-- Claim C9: every document produced by a successful `redactPdfByAreas`
run (for any region set, including the empty one) already has cleared
metadata: empty title, author, subject and keyword list, producer
`ActuallyRedactPDF - True Redaction` and creator `ActuallyRedactPDF`,
without `sanitizePdf` ever being invoked. -/
theorem redact_clears_metadata (doc : PdfDocument)
    (areas : List RedactionArea) (scale now : Int) (out : RedactedPdf)
    (h : redactPdfByAreas doc areas scale now = .ok out) :
    out.meta.title = "" ∧ out.meta.author = "" ∧ out.meta.subject = "" ∧
    out.meta.keywords = [] ∧
    out.meta.producer = "ActuallyRedactPDF - True Redaction" ∧
    out.meta.creator = "ActuallyRedactPDF" := by
  have hout := redactPdfByAreas_ok doc areas scale now out h
  subst hout
  exact ⟨rfl, rfl, rfl, rfl, rfl, rfl⟩

/-- Witness for C9 with an empty region set on a document with nonempty
input metadata. -/
theorem redact_clears_metadata_witness :
    redactPdfByAreas wDoc [] 2 5 = .ok wOut9 ∧
      wOut9.meta.title = "" ∧ wOut9.meta.author = "" ∧
      wOut9.meta.subject = "" ∧ wOut9.meta.keywords = [] ∧
      wOut9.meta.producer = "ActuallyRedactPDF - True Redaction" ∧
      wOut9.meta.creator = "ActuallyRedactPDF" :=
  ⟨rfl, redact_clears_metadata wDoc [] 2 5 wOut9 rfl⟩

/-- Counterexample to claim C2 as stated: with the empty region set (so the
single page owns zero regions), `redactPdfByAreas` still flattens the page —
decoding the output yields no text items at all, while the input page held
one text run, so the original runs are neither carried through unchanged
nor extractable from the output. -/
theorem untouched_page_counterexample :
    (redactPdfByAreas wDoc [] 2 0).map
        (fun o => o.toDocument.pages.map Page.items) = .ok [[]] ∧
      wDoc.pages.map Page.items = [[⟨"TOP SECRET", 72, 700, 120, 12⟩]] :=
  ⟨rfl, rfl⟩

/-- Claim C2 as amended: a page that owns zero redaction regions is still
rasterized and replaced by an image-only page; only its dimensions survive,
its raster is the rendered original page with no masks painted, and (like
every output page) it has no extractable text runs. -/
theorem zero_region_page_flattened (doc : PdfDocument)
    (areas : List RedactionArea) (scale now : Int) (out : RedactedPdf)
    (i : Nat) (h : redactPdfByAreas doc areas scale now = .ok out)
    (hi : i < doc.pages.length) (ho : i < out.pages.length)
    (hz : areas.filter (fun a => decide (a.pageIndex = i)) = []) :
    (out.pages.get ⟨i, ho⟩).width = (doc.pages.get ⟨i, hi⟩).width ∧
    (out.pages.get ⟨i, ho⟩).height = (doc.pages.get ⟨i, hi⟩).height ∧
    (out.pages.get ⟨i, ho⟩).image.basePage = doc.pages.get ⟨i, hi⟩ ∧
    (out.pages.get ⟨i, ho⟩).image.masks = [] ∧
    out.toDocument.pages.map Page.items = doc.pages.map (fun _ => []) := by
  have hout := redactPdfByAreas_ok doc areas scale now out h
  subst hout
  have hget := flattenAll_get areas scale doc.pages 0 i hi ho
  refine ⟨?_, ?_, ?_, ?_, ?_⟩
  · rw [hget]; rfl
  · rw [hget]; rfl
  · rw [hget]; rfl
  · rw [hget]
    show (areas.filter (fun a => decide (a.pageIndex = 0 + i))).map _ = []
    rw [Nat.zero_add, hz]
    rfl
  · show ((flattenAll areas scale doc.pages 0).map FlatPage.toPage).map
        Page.items = _
    rw [flattenAll_toPage areas scale doc.pages 0, List.map_map]
    rfl

/-- Witness for the amended C2 at a two-page document whose second page
owns zero regions. -/
theorem zero_region_page_flattened_witness :
    wAreas2.filter (fun a => decide (a.pageIndex = 1)) = [] ∧
      ((wOut2.pages.get ⟨1, by decide⟩).width =
          (wDoc2.pages.get ⟨1, by decide⟩).width ∧
        (wOut2.pages.get ⟨1, by decide⟩).height =
          (wDoc2.pages.get ⟨1, by decide⟩).height ∧
        (wOut2.pages.get ⟨1, by decide⟩).image.basePage =
          wDoc2.pages.get ⟨1, by decide⟩ ∧
        (wOut2.pages.get ⟨1, by decide⟩).image.masks = [] ∧
        wOut2.toDocument.pages.map Page.items =
          wDoc2.pages.map (fun _ => [])) :=
  ⟨by decide,
    zero_region_page_flattened wDoc2 wAreas2 3 0 wOut2 1 rfl (by decide)
      (by decide) (by decide)⟩

/-- Out-of-range regions are skipped by the verifier's range check. -/
theorem verifyArea_out_of_range (doc : PdfDocument) (area : RedactionArea)
    (h : doc.pages.length ≤ area.pageIndex) : verifyArea doc area = [] := by
  unfold verifyArea
  rw [dif_neg]
  omega

/-- Dropping a region aimed at a non-existent page does not change any
page's filtered region list. -/
theorem filter_middle (a1 a2 : List RedactionArea) (bad : RedactionArea)
    (i : Nat) (hne : bad.pageIndex ≠ i) :
    (a1 ++ bad :: a2).filter (fun a => decide (a.pageIndex = i)) =
      (a1 ++ a2).filter (fun a => decide (a.pageIndex = i)) := by
  simp [List.filter_append, List.filter_cons, hne]

/-- The page loop never reads a region whose index is past every page. -/
theorem renderAll_out_of_range (a1 a2 : List RedactionArea)
    (bad : RedactionArea) (scale : Int) :
    ∀ (ps : List Page) (i : Nat), i + ps.length ≤ bad.pageIndex →
      renderAll (a1 ++ bad :: a2) scale ps i =
        renderAll (a1 ++ a2) scale ps i := by
  intro ps
  induction ps with
  | nil => intro i _; rfl
  | cons p rest ih =>
    intro i h
    have h1 : flattenPage (a1 ++ bad :: a2) scale i p =
        flattenPage (a1 ++ a2) scale i p := by
      unfold flattenPage
      rw [filter_middle a1 a2 bad i (by simp at h; omega)]
    have h2 : (p :: rest).length = rest.length + 1 := rfl
    rw [h2] at h
    simp only [renderAll, ih (i + 1) (by omega), h1]

/-- Claim C10: a redaction region whose `pageIndex` is at or past the
document's page count has no effect at the public interface:
`redactPdfByAreas` produces the same output with or without it, and
`verifyRedaction` skips it without error and without contributing any
extracted fragment. -/
theorem out_of_range_region_noop (doc : PdfDocument)
    (a1 a2 : List RedactionArea) (bad : RedactionArea) (scale now : Int)
    (h : doc.pages.length ≤ bad.pageIndex) :
    redactPdfByAreas doc (a1 ++ bad :: a2) scale now =
      redactPdfByAreas doc (a1 ++ a2) scale now ∧
    verifyRedaction doc (a1 ++ bad :: a2) = verifyRedaction doc (a1 ++ a2) := by
  constructor
  · unfold redactPdfByAreas
    rw [renderAll_out_of_range a1 a2 bad scale doc.pages 0 (by omega)]
  · unfold verifyRedaction
    simp only [List.flatMap_append, List.flatMap_cons]
    rw [verifyArea_out_of_range doc bad h]
    simp

/-- Witness for C10 at a concrete two-page document and a region aimed at
page index 9. -/
theorem out_of_range_region_noop_witness :
    wDoc2.pages.length ≤ wBadArea.pageIndex ∧
      (redactPdfByAreas wDoc2 (wAreas2 ++ wBadArea :: []) 3 0 =
          redactPdfByAreas wDoc2 (wAreas2 ++ []) 3 0 ∧
        verifyRedaction wDoc2 (wAreas2 ++ wBadArea :: []) =
          verifyRedaction wDoc2 (wAreas2 ++ [])) :=
  ⟨by decide, out_of_range_region_noop wDoc2 wAreas2 [] wBadArea 3 0 (by decide)⟩

/-- Counterexample to claim C3 as stated: on `exDoc3` the ssn pattern
matches `"123 45-6789"` over the range `[0, 11)` of the concatenated text,
overlapping the first run's contributed range `[0, 3]` and the second
run's `[4, 11]`; the locator emits exactly one region, but its rectangle is
the first run's box alone (x 10, width 30, ending at 40), stopping short of
the second run (which starts at x 45 and extends to 115) instead of the
union of both runs' geometry. -/
theorem span_union_counterexample :
    detectSensitivePatterns exDoc3 [.ssn] = [exMatch3] ∧
    execPattern (PATTERNS .ssn) (buildPositionMap exPage3.items 0).1 =
      [(0, 11)] ∧
    (buildPositionMap exPage3.items 0).2.map (fun e => (e.start, e.stop)) =
      [(0, 3), (4, 11)] ∧
    exMatch3.x = 10 ∧ exMatch3.width = 30 ∧
    exPage3.items.map (fun it => (it.tx, it.width)) = [(10, 30), (45, 70)] ∧
    exMatch3.x + exMatch3.width < 45 := by
  decide

/-- Every `positionMap` entry's item is one of the page's items. -/
theorem buildPositionMap_item_mem :
    ∀ (items : List TextItem) (acc : Nat) (pos : PosEntry),
      pos ∈ (buildPositionMap items acc).2 → pos.item ∈ items := by
  intro items
  induction items with
  | nil =>
    intro acc pos h
    exact absurd h (List.not_mem_nil pos)
  | cons it rest ih =>
    intro acc pos h
    simp only [buildPositionMap] at h
    rcases List.mem_cons.mp h with hp | hp
    · rw [hp]
      exact List.mem_cons_self it rest
    · exact List.mem_cons_of_mem it (ih _ pos hp)

/-- Every match pushed by `detectSensitivePatterns` on one page takes its
whole geometry from one single item of that page. -/
theorem pageMatchesFor_shape (i : Nat) (page : Page) (t : PatternType)
    (m : PatternMatch) (hm : m ∈ pageMatchesFor i page t) :
    ∃ it ∈ page.items,
      m.pageIndex = i ∧ m.patternType = t ∧ m.x = it.tx ∧
      m.y = page.height - it.ty - effHeight it.height ∧
      m.width = effWidth100 it.width ∧ m.height = effHeight it.height + 4 := by
  unfold pageMatchesFor at hm
  obtain ⟨ml, _, hf⟩ := List.mem_filterMap.mp hm
  cases hfind : (buildPositionMap page.items 0).2.find? (fun pos =>
      decide (pos.start ≤ ml.1) && decide (ml.1 ≤ pos.stop)) with
  | none =>
    rw [hfind] at hf
    cases hf
  | some pos =>
    rw [hfind] at hf
    have hpos := List.mem_of_find?_eq_some hfind
    cases hf
    exact ⟨pos.item, buildPositionMap_item_mem page.items 0 pos hpos,
      rfl, rfl, rfl, rfl, rfl, rfl⟩

/-- Locating a member of the page loop's output. -/
theorem detectPages_mem :
    ∀ (ps : List Page) (i0 : Nat) (ts : List PatternType) (m : PatternMatch),
      m ∈ detectPages ps i0 ts →
      ∃ j, ∃ hj : j < ps.length, ∃ t ∈ ts,
        m ∈ pageMatchesFor (i0 + j) (ps.get ⟨j, hj⟩) t := by
  intro ps
  induction ps with
  | nil =>
    intro i0 ts m h
    exact absurd h (List.not_mem_nil m)
  | cons p rest ih =>
    intro i0 ts m h
    simp only [detectPages] at h
    rcases List.mem_append.mp h with hl | hr
    · obtain ⟨t, ht, hm⟩ := List.mem_flatMap.mp hl
      exact ⟨0, Nat.succ_pos _, t, ht, by simpa using hm⟩
    · obtain ⟨j, hj, t, ht, hm⟩ := ih (i0 + 1) ts m hr
      refine ⟨j + 1, Nat.succ_lt_succ hj, t, ht, ?_⟩
      have he : i0 + (j + 1) = (i0 + 1) + j := by omega
      rw [he]
      exact hm

/-- Claim C3 as amended: every region the pattern locator emits takes its
rectangle from exactly one run of the page — the first run whose
contributed range contains the match's start offset — never from the union
of all runs the match overlaps. -/
theorem match_region_single_run (doc : PdfDocument) (ts : List PatternType)
    (m : PatternMatch) (hm : m ∈ detectSensitivePatterns doc ts) :
    ∃ i, ∃ hi : i < doc.pages.length, ∃ it ∈ (doc.pages.get ⟨i, hi⟩).items,
      m.pageIndex = i ∧ m.x = it.tx ∧
      m.y = (doc.pages.get ⟨i, hi⟩).height - it.ty - effHeight it.height ∧
      m.width = effWidth100 it.width ∧ m.height = effHeight it.height + 4 := by
  obtain ⟨j, hj, t, _, hmf⟩ := detectPages_mem doc.pages 0 ts m hm
  obtain ⟨it, hit, h1, _, h3, h4, h5, h6⟩ :=
    pageMatchesFor_shape (0 + j) _ t m hmf
  exact ⟨j, hj, it, hit, by simpa using h1, h3, h4, h5, h6⟩

/-- Witness for the amended C3 at the cross-run ssn match of `exDoc3`. -/
theorem match_region_single_run_witness :
    exMatch3 ∈ detectSensitivePatterns exDoc3 [.ssn] ∧
      (∃ i, ∃ hi : i < exDoc3.pages.length,
        ∃ it ∈ (exDoc3.pages.get ⟨i, hi⟩).items,
          exMatch3.pageIndex = i ∧ exMatch3.x = it.tx ∧
          exMatch3.y =
            (exDoc3.pages.get ⟨i, hi⟩).height - it.ty - effHeight it.height ∧
          exMatch3.width = effWidth100 it.width ∧
          exMatch3.height = effHeight it.height + 4) :=
  ⟨by decide, match_region_single_run exDoc3 [.ssn] exMatch3 (by decide)⟩

/-- The Boolean overlap test of `verifyRedaction`, unfolded to the
axis-aligned rectangle intersection formula on the run's box: `x`, `y` the
top-left-converted position, the raw extracted `width`, and the run height
attribute with its declared fallback (`textItem.height || 12`). -/
theorem itemOverlapsArea_iff (ph : Int) (it : TextItem)
    (area : RedactionArea) :
    itemOverlapsArea ph it area = true ↔
      (it.tx < area.x + area.width ∧ area.x < it.tx + it.width ∧
        ph - it.ty < area.y + area.height ∧
        area.y < ph - it.ty + effHeight it.height) := by
  unfold itemOverlapsArea
  simp [and_assoc]

/-- The per-area extraction is empty exactly when no run of the addressed
page overlaps the area. -/
theorem verifyArea_eq_nil_iff (doc : PdfDocument) (area : RedactionArea) :
    verifyArea doc area = [] ↔
      ∀ hp : area.pageIndex < doc.pages.length,
        ∀ it ∈ (doc.pages.get ⟨area.pageIndex, hp⟩).items,
          itemOverlapsArea (doc.pages.get ⟨area.pageIndex, hp⟩).height it
            area = false := by
  unfold verifyArea
  by_cases hp0 : area.pageIndex < doc.pages.length
  · rw [dif_pos hp0]
    constructor
    · intro hnil hp it hit
      have hall := List.filterMap_eq_nil_iff.mp hnil it hit
      by_cases hb : itemOverlapsArea
          (doc.pages.get ⟨area.pageIndex, hp0⟩).height it area = true
      · rw [if_pos hb] at hall
        cases hall
      · simpa using hb
    · intro hall
      refine List.filterMap_eq_nil_iff.mpr (fun it hit => ?_)
      rw [if_neg]
      rw [hall hp0 it hit]
      simp
  · rw [dif_neg hp0]
    exact ⟨fun _ hp => absurd hp hp0, fun _ => rfl⟩

/-- A string extracted for one area is in the verifier's full report. -/
theorem verifyArea_subset_report (doc : PdfDocument)
    (areas : List RedactionArea) (area : RedactionArea) (ha : area ∈ areas)
    (s : String) (hs : s ∈ verifyArea doc area) :
    s ∈ (verifyRedaction doc areas).extractedText := by
  show s ∈ areas.flatMap (verifyArea doc)
  exact List.mem_flatMap.mpr ⟨area, ha, hs⟩

/-- Claim C4: `verifyRedaction` returns `success = true` exactly when no
extracted run overlaps any supplied region, where a run's box overlaps a
region via the axis-aligned intersection test `run.x < region.x +
region.width AND region.x < run.x + run.width AND run.y < region.y +
region.height AND region.y < run.y + run.height` (the run box being the
top-left-converted position, the extracted width, and the height attribute
with its declared fallback of 12 when the raw height is 0); and the
returned `extractedText` list contains the text of every overlapping run
found — it is produced unconditionally, never discarded. -/
theorem verify_success_iff_no_overlap (doc : PdfDocument)
    (areas : List RedactionArea) :
    ((verifyRedaction doc areas).success = true ↔
      ∀ area ∈ areas, ∀ hp : area.pageIndex < doc.pages.length,
        ∀ it ∈ (doc.pages.get ⟨area.pageIndex, hp⟩).items,
          ¬(it.tx < area.x + area.width ∧ area.x < it.tx + it.width ∧
            (doc.pages.get ⟨area.pageIndex, hp⟩).height - it.ty <
              area.y + area.height ∧
            area.y < (doc.pages.get ⟨area.pageIndex, hp⟩).height - it.ty +
              effHeight it.height)) ∧
    (∀ area ∈ areas, ∀ hp : area.pageIndex < doc.pages.length,
      ∀ it ∈ (doc.pages.get ⟨area.pageIndex, hp⟩).items,
        (it.tx < area.x + area.width ∧ area.x < it.tx + it.width ∧
          (doc.pages.get ⟨area.pageIndex, hp⟩).height - it.ty <
            area.y + area.height ∧
          area.y < (doc.pages.get ⟨area.pageIndex, hp⟩).height - it.ty +
            effHeight it.height) →
        it.str ∈ (verifyRedaction doc areas).extractedText) := by
  constructor
  · have hsucc : (verifyRedaction doc areas).success =
        (areas.flatMap (verifyArea doc)).isEmpty := rfl
    rw [hsucc, List.isEmpty_iff, List.flatMap_eq_nil_iff]
    constructor
    · intro hall area ha hp it hit hover
      have h1 := (verifyArea_eq_nil_iff doc area).mp (hall area ha) hp it hit
      rw [(itemOverlapsArea_iff _ it area).mpr hover] at h1
      cases h1
    · intro hall area ha
      refine (verifyArea_eq_nil_iff doc area).mpr (fun hp it hit => ?_)
      by_cases hb : itemOverlapsArea
          (doc.pages.get ⟨area.pageIndex, hp⟩).height it area = true
      · exact absurd ((itemOverlapsArea_iff _ it area).mp hb)
          (hall area ha hp it hit)
      · simpa using hb
  · intro area ha hp it hit hover
    refine verifyArea_subset_report doc areas area ha it.str ?_
    unfold verifyArea
    rw [dif_pos hp]
    refine List.mem_filterMap.mpr ⟨it, hit, ?_⟩
    rw [if_pos ((itemOverlapsArea_iff _ it area).mpr hover)]

/-- Witness for C4 at a concrete document: the height-0 run `"ghost"`
overlaps the region only through the fallback height 12, and the verifier
reports `success = false` with the run's text in the report. -/
theorem verify_success_iff_no_overlap_witness :
    verifyRedaction exDoc4 [exArea4] = ⟨false, ["ghost"]⟩ ∧
      ((verifyRedaction exDoc4 [exArea4]).success = true ↔
        ∀ area ∈ [exArea4], ∀ hp : area.pageIndex < exDoc4.pages.length,
          ∀ it ∈ (exDoc4.pages.get ⟨area.pageIndex, hp⟩).items,
            ¬(it.tx < area.x + area.width ∧ area.x < it.tx + it.width ∧
              (exDoc4.pages.get ⟨area.pageIndex, hp⟩).height - it.ty <
                area.y + area.height ∧
              area.y < (exDoc4.pages.get ⟨area.pageIndex, hp⟩).height -
                it.ty + effHeight it.height)) :=
  ⟨by decide, (verify_success_iff_no_overlap exDoc4 [exArea4]).1⟩

/-- Filtering distributes over `flatMap`. -/
theorem filter_flatMap {α β : Type} (l : List α) (f : α → List β)
    (p : β → Bool) :
    (l.flatMap f).filter p = l.flatMap (fun a => (f a).filter p) := by
  induction l with
  | nil => rfl
  | cons a rest ih => simp [List.filter_append, ih]

/-- A `flatMap` whose body is conditionally empty is a `flatMap` over the
filtered list. -/
theorem flatMap_ite {α β : Type} (l : List α) (q : α → Prop)
    [DecidablePred q] (f : α → List β) :
    (l.flatMap fun a => if q a then f a else []) =
      (l.filter (fun a => decide (q a))).flatMap f := by
  induction l with
  | nil => rfl
  | cons a rest ih =>
    by_cases hq : q a
    · simp [List.filter_cons, hq, ih]
    · simp [List.filter_cons, hq, ih]

/-- Every match of `pageMatchesFor` for type `t` carries `patternType = t`. -/
theorem pageMatchesFor_patternType (i : Nat) (page : Page) (t : PatternType)
    (m : PatternMatch) (hm : m ∈ pageMatchesFor i page t) :
    m.patternType = t := by
  obtain ⟨_, _, _, hpt, _⟩ := pageMatchesFor_shape i page t m hm
  exact hpt

/-- Filtering one page's matches of type `t` by membership of the type in
`S` keeps either all of them or none of them. -/
theorem pageMatchesFor_filter_mem (i : Nat) (page : Page) (t : PatternType)
    (S : List PatternType) :
    (pageMatchesFor i page t).filter (fun m => decide (m.patternType ∈ S)) =
      if t ∈ S then pageMatchesFor i page t else [] := by
  by_cases ht : t ∈ S
  · rw [if_pos ht]
    refine List.filter_eq_self.mpr (fun m hm => ?_)
    rw [pageMatchesFor_patternType i page t m hm]
    exact decide_eq_true ht
  · rw [if_neg ht]
    refine List.filter_eq_nil_iff.mpr (fun m hm => ?_)
    rw [pageMatchesFor_patternType i page t m hm]
    simp [ht]

/-- Pattern toggling on the page loop: running with an order-preserving
subset of the categories equals running with all four and filtering the
output by category. -/
theorem detectPages_filter (S : List PatternType)
    (hS : S = canonicalPatternTypes.filter (fun t => decide (t ∈ S))) :
    ∀ (ps : List Page) (i : Nat),
      detectPages ps i S = (detectPages ps i canonicalPatternTypes).filter
        (fun m => decide (m.patternType ∈ S)) := by
  intro ps
  induction ps with
  | nil => intro i; rfl
  | cons p rest ih =>
    intro i
    show S.flatMap (fun t => pageMatchesFor i p t) ++ detectPages rest (i + 1) S
      = (canonicalPatternTypes.flatMap (fun t => pageMatchesFor i p t) ++
          detectPages rest (i + 1) canonicalPatternTypes).filter
          (fun m => decide (m.patternType ∈ S))
    rw [List.filter_append, ← ih (i + 1)]
    congr 1
    rw [filter_flatMap]
    have h1 : canonicalPatternTypes.flatMap
        (fun t => (pageMatchesFor i p t).filter
          (fun m => decide (m.patternType ∈ S))) =
        canonicalPatternTypes.flatMap
          (fun t => if t ∈ S then pageMatchesFor i p t else []) := by
      simp only [pageMatchesFor_filter_mem]
    rw [h1, flatMap_ite, ← hS]

/-- Claim C6: for every document and every subset `S` of the four pattern
categories (taken in the source's canonical order), `detectSensitivePatterns`
invoked with `S` returns exactly the matches of the full run whose
`patternType` lies in `S`: disabling a category removes all of its matches
and only its matches, leaving every enabled category's matches unaffected. -/
theorem detect_pattern_toggle (doc : PdfDocument) (S : List PatternType)
    (hS : S = canonicalPatternTypes.filter (fun t => decide (t ∈ S))) :
    detectSensitivePatterns doc S =
      (detectSensitivePatterns doc canonicalPatternTypes).filter
        (fun m => decide (m.patternType ∈ S)) :=
  detectPages_filter S hS doc.pages 0

/-- Witness for C6 with the subset {ssn, phone} on a page holding both an
ssn-shaped and an email-shaped text. -/
theorem detect_pattern_toggle_witness :
    exTypes6 = canonicalPatternTypes.filter (fun t => decide (t ∈ exTypes6)) ∧
      detectSensitivePatterns exDoc6 exTypes6 =
        (detectSensitivePatterns exDoc6 canonicalPatternTypes).filter
          (fun m => decide (m.patternType ∈ exTypes6)) :=
  ⟨by decide, detect_pattern_toggle exDoc6 exTypes6 (by decide)⟩
